import Mathlib

/-!
Verification development for the `TypewriterTextbox` class
(`src/utils/TypewriterTextbox.js`): a queue-driven typewriter text
reveal engine.  The JavaScript class is shallowly embedded as:

* a pure segment parser (`parseText`, embedding `parseText` and its
  regex scan for `\{(\w+):([^}]+)\}` markers);
* a timed reveal-trace function (`revealT`, embedding the `typeChar`
  loop of `typeText` together with its `setTimeout` schedule); and
* a whole-object state machine (`State` plus one Lean function per
  method / event handler), in which the single-threaded JS event loop
  is modelled by atomic steps: each step is one synchronous run to
  quiescence (method call, input-event dispatch, or timer callback,
  each together with the microtask continuations it unblocks).

Promises are modelled explicitly: `continueResolve` holds the pending
continue-waiter (either the queue loop's own waiter or the orphan
waiter that `skip()` creates); a pending character timer is `charTimer`;
pending `wait(delayAfter)` timers are counted by `delayTimers`.  A
`processQueue` activation that is suspended on a promise whose resolve
function has become unreachable (its timer was cancelled) can never be
resumed; the counter `stuckPQ` counts such permanently-suspended
activations so that theorems can speak about them.
-/

namespace TW

/-! ## JavaScript value and object model (for the options plumbing) -/

/-- The JavaScript values that the options plumbing manipulates. -/
inductive JsVal where
  | undefined
  | null
  | bool (b : Bool)
  | num (q : ℚ)
  | str (s : String)
deriving DecidableEq, Repr

/-- JS truthiness for the values in `JsVal` (NaN is not modelled). -/
def jsTruthy : JsVal → Bool
  | .undefined => false
  | .null => false
  | .bool b => b
  | .num q => q != 0
  | .str s => s != ""

/-- JS `a || b` on values: `b` when `a` is falsy, else `a`. -/
def jsOr (a b : JsVal) : JsVal := if jsTruthy a then a else b

/-- A JS object as an ordered list of own properties; later entries
shadow earlier ones, as in object-literal / spread evaluation. -/
abbrev JsObj := List (String × JsVal)

/-- `key in obj`: whether the key is an own property. -/
def hasKey : JsObj → String → Bool
  | [], _ => false
  | (k, _) :: rest, key => if k = key then true else hasKey rest key

/-- Fold over the property list keeping the last binding of `key`. -/
def objGetAux (key : String) : JsVal → JsObj → JsVal
  | acc, [] => acc
  | acc, (k, v) :: rest => objGetAux key (if k = key then v else acc) rest

/-- Property read `obj.key`: the last binding wins, `undefined` if absent. -/
def objGet (o : JsObj) (key : String) : JsVal := objGetAux key JsVal.undefined o

/-- The constructor's option resolution (lines 36–51): an object literal
whose first thirteen entries apply the per-key defaults (`||` for most
keys, an `!== undefined` test for `fixedSize` and `waitForInput`),
followed by the spread `...options` which re-adds every caller key. -/
def resolveOptions (options : JsObj) : JsObj :=
  [ ("fontFamily", jsOr (objGet options "fontFamily") (JsVal.str "PixelSans")),
    ("fontSize", jsOr (objGet options "fontSize") (JsVal.num 40)),
    ("color", jsOr (objGet options "color") (JsVal.str "#F3E8D8")),
    ("speed", jsOr (objGet options "speed") (JsVal.num 30)),
    ("type", jsOr (objGet options "type") (JsVal.str "disappear")),
    ("delayAfter", jsOr (objGet options "delayAfter") (JsVal.num 2000)),
    ("backgroundColor", jsOr (objGet options "backgroundColor") (JsVal.str "transparent")),
    ("padding", jsOr (objGet options "padding") (JsVal.str "10px")),
    ("skippable", jsOr (objGet options "skippable") (JsVal.bool false)),
    ("fixedSize",
      if objGet options "fixedSize" ≠ JsVal.undefined then objGet options "fixedSize"
      else JsVal.bool true),
    ("width", jsOr (objGet options "width") (JsVal.str "100%")),
    ("height", jsOr (objGet options "height") (JsVal.str "auto")),
    ("waitForInput",
      if objGet options "waitForInput" ≠ JsVal.undefined then objGet options "waitForInput"
      else JsVal.bool true) ]
  ++ options

/-! ## Segment parser (`parseText`, lines 327–365) -/

/-- One parsed segment: its text and an optional effect tag. -/
structure Segment where
  text : List Char
  effect : Option (List Char)
deriving DecidableEq, Repr

/-- JS `\w`: ASCII letters, digits and underscore. -/
def isWordChar (c : Char) : Bool := c.isAlphanum || c == '_'

/-- Try to match the regex `\{(\w+):([^}]+)\}` at the head of `l`,
returning `(tag, content, rest)` on success.  Greediness of `\w+` and
`[^}]+` coincides with the maximal `takeWhile` runs because neither
`:` nor `\x7d` can occur inside the respective character classes. -/
def matchMarker (l : List Char) : Option (List Char × List Char × List Char) :=
  match l with
  | '{' :: rest =>
    let tag := rest.takeWhile isWordChar
    let rest1 := rest.dropWhile isWordChar
    if tag.isEmpty then none else
    match rest1 with
    | ':' :: rest2 =>
      let content := rest2.takeWhile (fun c => !(c == '}'))
      let rest3 := rest2.dropWhile (fun c => !(c == '}'))
      if content.isEmpty then none else
      match rest3 with
      | '}' :: rest4 => some (tag, content, rest4)
      | _ => none
    | _ => none
  | _ => none

/-- Result of scanning forward for the next marker: either the end of
input was reached, or a marker was found.  `pending` accumulates (in
reverse) the plain text walked over, matching `regex.exec`'s forward
search from `lastIndex`. -/
inductive ScanStep where
  | done (pending : List Char)
  | found (pending tag content rest : List Char)
deriving DecidableEq, Repr

/-- Walk `l` left to right until `matchMarker` succeeds (the leftmost
match, as `regex.exec` finds). -/
def findMarker (pending : List Char) : List Char → ScanStep
  | [] => .done pending
  | ch :: cs =>
    match matchMarker (ch :: cs) with
    | some (t, c, r) => .found pending t c r
    | none => findMarker (ch :: pending) cs

/-- Flush the accumulated plain text as a segment, or nothing when it is
empty — the `if (match.index > lastIndex)` / `if (lastIndex < text.length)`
guards of the source. -/
def flushPlain (pending : List Char) : List Segment :=
  if pending.isEmpty then [] else [⟨pending.reverse, none⟩]

/-- The `while ((match = regex.exec(text)) !== null)` loop.  `fuel`
bounds the number of markers consumed; every marker consumes at least
five characters, so fuel equal to the input length is always enough
(the fuel-0 arm is unreachable then, see `scanLoop_join`). -/
def scanLoop : Nat → List Char → List Char → List Segment
  | fuel, pending, l =>
    match findMarker pending l with
    | .done pend => flushPlain pend
    | .found pend t c r =>
      match fuel with
      | 0 => flushPlain pend
      | fuel' + 1 => flushPlain pend ++ ⟨c, some t⟩ :: scanLoop fuel' [] r

/-- `parseText` (lines 327–365): scan for markers; if no segment was
produced (empty input), return the whole text as one plain segment. -/
def parseText (text : List Char) : List Segment :=
  let segments := scanLoop text.length [] text
  if segments.isEmpty then [⟨text, none⟩] else segments

/-- Whether some position of `l` starts a `\{(\w+):([^}]+)\}` marker. -/
def hasMarker : List Char → Bool
  | [] => false
  | ch :: cs => (matchMarker (ch :: cs)).isSome || hasMarker cs

/-- The source text a segment came from: plain segments verbatim, effect
segments wrapped back in their marker syntax. -/
def segSource (s : Segment) : List Char :=
  match s.effect with
  | none => s.text
  | some t => '{' :: (t ++ ':' :: (s.text ++ ['}']))

/-- Concatenation of a list of character lists. -/
def joinAll : List (List Char) → List Char
  | [] => []
  | x :: xs => x ++ joinAll xs

/-! ## Reveal driver timing (`typeText` / `typeChar`, lines 387–428) -/

/-- `const charsPerMs = this.options.speed / 1000` (line 388). -/
def charsPerMs (speed : ℚ) : ℚ := speed / 1000

/-- `const msPerChar = 1 / charsPerMs` (line 389): the constant delay
passed to `setTimeout` after every appended character. -/
def msPerChar (speed : ℚ) : ℚ := 1 / charsPerMs speed

/-- The timed emission trace of the `typeChar` loop, starting inside
segment number `i` with remaining characters `cs` and remaining
segments `rest`.  One entry `(time, segmentIndex, char)` per appended
character: a character is emitted at the current time and the next
`typeChar` is scheduled `d` later; an exhausted segment advances with
no time cost (`typeChar()` is called immediately, line 419). -/
def revealT (d : ℚ) : ℚ → Nat → List Char → List Segment → List (ℚ × Nat × Char)
  | t, i, c :: cs, rest => (t, i, c) :: revealT d (t + d) i cs rest
  | t, i, [], seg :: rest => revealT d t (i + 1) seg.text rest
  | _, _, [], [] => []
termination_by _ _ cs rest => (rest.length, cs.length)

/-- Full timed trace of revealing a segment list from cursor (0, 0) at
time 0 (the first `typeChar()` call is synchronous, line 427). -/
def revealTrace (d : ℚ) (segs : List Segment) : List (ℚ × Nat × Char) :=
  match segs with
  | [] => []
  | seg :: rest => revealT d 0 0 seg.text rest

/-- Specification-side emission list: the characters of one segment,
each tagged with the segment's index. -/
def charEmits (i : Nat) : List Char → List (Nat × Char)
  | [] => []
  | c :: cs => (i, c) :: charEmits i cs

/-- Specification-side emission list of a whole segment sequence:
every character exactly once, in order. -/
def segEmits (i : Nat) : List Segment → List (Nat × Char)
  | [] => []
  | s :: rest => charEmits i s.text ++ segEmits (i + 1) rest

/-- Attach uniformly spaced timestamps (spacing `d`, start `t`) to an
emission list: consecutive emissions are exactly `d` apart. -/
def timeStamp (d : ℚ) : ℚ → List (Nat × Char) → List (ℚ × Nat × Char)
  | _, [] => []
  | t, (i, c) :: rest => (t, i, c) :: timeStamp d (t + d) rest

/-! ## Styles (`applyStyles`, lines 107–143) -/

/-- The inline style properties that `applyStyles` (and the
constructor's skip-listener setup) write on the text element.  `none`
means the property has never been assigned. -/
structure Styles where
  fontFamily : Option String := none
  fontSize : Option String := none
  color : Option String := none
  backgroundColor : Option String := none
  wordWrap : Option String := none
  overflowWrap : Option String := none
  boxSizing : Option String := none
  position : Option String := none
  padding : Option String := none
  paddingBottom : Option String := none
  width : Option String := none
  height : Option String := none
  overflow : Option String := none
  minHeight : Option String := none
  cursor : Option String := none
deriving DecidableEq, Repr

/-- Decimal rendering of a rational as JS template-literal coercion
would produce for the numbers that occur here (integers). -/
def ratToStr (q : ℚ) : String :=
  if q.den = 1 then toString q.num else toString q.num ++ "/" ++ toString q.den

/-- JS string coercion of an option value, as used in style assignments. -/
def jsStr : JsVal → String
  | .undefined => "undefined"
  | .null => "null"
  | .bool b => if b then "true" else "false"
  | .num q => ratToStr q
  | .str s => s

/-- Digits of `\d+` folded as `parseInt` would read them. -/
def digitsToNat (ds : List Char) : Nat :=
  ds.foldl (fun n c => n * 10 + (c.toNat - '0'.toNat)) 0

/-- Match `px`, `em` or `rem` (in this alternation order) at the head. -/
def matchUnit (l : List Char) : Option String :=
  if l.take 2 = 'p' :: 'x' :: [] then some "px"
  else if l.take 2 = 'e' :: 'm' :: [] then some "em"
  else if l.take 3 = 'r' :: 'e' :: 'm' :: [] then some "rem"
  else none

/-- Leftmost match of `(\d+)(px|em|rem)` (the padding regex, line 121):
at each start position take the maximal digit run and require a unit
suffix; on failure advance one character, as regex search does.
(`\d+` cannot usefully backtrack: giving back a digit leaves a digit
in front of the unit alternatives.) -/
def findPadding : List Char → Option (Nat × String)
  | [] => none
  | c :: cs =>
    if c.isDigit then
      match matchUnit ((c :: cs).dropWhile Char.isDigit) with
      | some u => some (digitsToNat ((c :: cs).takeWhile Char.isDigit), u)
      | none => findPadding cs
    else findPadding cs

/-- `applyStyles` (lines 107–143): assign the presentation properties
from the options, with the padding-bottom adjustment when
`waitForInput` is on and the fixed-size branch. -/
def applyStyles (o : JsObj) (st : Styles) : Styles :=
  let st1 :=
    { st with
      fontFamily := some (jsStr (objGet o "fontFamily")),
      fontSize := some (jsStr (objGet o "fontSize") ++ "px"),
      color := some (jsStr (objGet o "color")),
      backgroundColor := some (jsStr (objGet o "backgroundColor")),
      wordWrap := some "break-word",
      overflowWrap := some "break-word",
      boxSizing := some "border-box",
      position := some "relative" }
  let basePadding := jsStr (objGet o "padding")
  let st2 :=
    if jsTruthy (objGet o "waitForInput") then
      match findPadding basePadding.toList with
      | some (v, u) =>
        { st1 with padding := some basePadding,
                   paddingBottom := some (toString (v + 20) ++ u) }
      | none =>
        { st1 with padding := some basePadding, paddingBottom := some "30px" }
    else { st1 with padding := some basePadding }
  if jsTruthy (objGet o "fixedSize") then
    { st2 with width := some (jsStr (objGet o "width")),
               height := some (jsStr (objGet o "height")),
               overflow := some "auto" }
  else { st2 with width := some "100%", minHeight := some "auto" }

/-! ## The whole-object state machine -/

/-- A child node of the text element other than the continue indicator:
a `span` (its `data-segment` attribute, if any; its effect class, if
any; its accumulated `textContent`) or a `br` separator.  The continue
indicator is kept out of this list because every bulk child removal in
the source explicitly spares it; its visibility is a separate flag. -/
inductive Node where
  | span (dataSegment : Option Nat) (effect : Option (List Char)) (text : List Char)
  | br
deriving DecidableEq, Repr

/-- What resolving `this.continueResolve` resumes: the queue loop's own
`waitForContinue` suspension inside `processQueue` (`.gate`), or the
orphan promise that `skip()` creates at line 510, which nothing awaits
(`.orphan`). -/
inductive Waiter where
  | gate
  | orphan
deriving DecidableEq, Repr

/-- The instance state of a `TypewriterTextbox`, together with the
explicit bookkeeping for the asynchronous control flow (see the module
docstring).  `charTimer` is true iff a `typeChar` timeout is live
(scheduled and neither fired nor cleared); the stale already-fired id
that the source leaves in `this.timeoutId` is not live and clearing it
is a no-op, so it is not modelled separately. -/
structure State where
  options : JsObj
  styles : Styles
  queue : List (List Char)
  isTyping : Bool
  currentText : List Char
  currentIndex : Nat
  charTimer : Bool
  hasSkippedCurrentText : Bool
  currentFullText : Option (List Char)
  segments : List Segment
  currentSegmentIndex : Nat
  currentSegmentCharIndex : Nat
  continueResolve : Option Waiter
  dom : List Node
  indicatorVisible : Bool
  skipListeners : Bool
  continueListeners : Bool
  delayTimers : Nat
  stuckPQ : Nat
deriving DecidableEq, Repr

/-- `this.options.waitForInput` read with JS truthiness. -/
def optWaitForInput (s : State) : Bool := jsTruthy (objGet s.options "waitForInput")

/-- `this.options.skippable` read with JS truthiness. -/
def optSkippable (s : State) : Bool := jsTruthy (objGet s.options "skippable")

/-- `this.options.type === 'disappear'`. -/
def optDisappear (s : State) : Bool := objGet s.options "type" = JsVal.str "disappear"

/-- `clear()` (lines 434–449): cancel a live character timeout, reset
the revealed-text counters and remove every child except the continue
indicator.  Cancelling a live character timeout makes the reveal's
completion promise unresolvable, permanently stranding the
`processQueue` activation awaiting it — counted in `stuckPQ`. -/
def clear (s : State) : State :=
  { s with
    charTimer := false,
    stuckPQ := s.stuckPQ + (if s.charTimer then 1 else 0),
    currentText := [],
    currentIndex := 0,
    dom := [] }

/-- `waitForContinue`'s promise executor (lines 255–258): store the
resolver and show the indicator.  Overwriting a still-pending `.gate`
resolver strands the activation that was awaiting it. -/
def setWaiter (w : Waiter) (s : State) : State :=
  { s with
    continueResolve := some w,
    stuckPQ := s.stuckPQ + (if s.continueResolve = some Waiter.gate then 1 else 0),
    indicatorVisible := true }

/-- The gate after a reveal completes (lines 301–307): with
`waitForInput`, suspend on `waitForContinue()`; otherwise suspend on
`wait(delayAfter)` — an untracked timeout, counted in `delayTimers`. -/
def gateStart (s : State) : State :=
  if optWaitForInput s then setWaiter Waiter.gate s
  else { s with delayTimers := s.delayTimers + 1 }

/-- Does this node match `querySelector('[data-segment="i"]')`? -/
def spanMatches (i : Nat) : Node → Bool
  | .span (some k) _ _ => k == i
  | _ => false

/-- `span.textContent += char` on the first matching span. -/
def appendToFirst (i : Nat) (c : Char) : List Node → List Node
  | [] => []
  | n :: rest =>
    if spanMatches i n then
      (match n with
       | .span k e t => .span k e (t ++ [c])
       | other => other) :: rest
    else n :: appendToFirst i c rest

/-- Lines 399–411: find the span for segment `i`, creating it (with its
effect class and `data-segment` attribute, inserted before the
indicator, i.e. at the end of `dom`) if absent, then append `c`. -/
def appendCharToDom (dom : List Node) (i : Nat) (eff : Option (List Char)) (c : Char) : List Node :=
  if dom.any (spanMatches i) then appendToFirst i c dom
  else dom ++ [Node.span (some i) eff [c]]

/-- The cursor-advance of one `typeChar` execution over the segment
suffix `suf = segments.drop i`: skip exhausted segments (immediate,
line 415–420), then either `some (emitIndex, char, newSegIndex,
newCharIndex)` for the character to append, or `none` when all
segments are exhausted. -/
def nextEmit : List Segment → Nat → Nat → Option (Nat × Char × Nat × Nat)
  | [], _, _ => none
  | seg :: rest, i, j =>
    if h : j < seg.text.length then some (i, seg.text.get ⟨j, h⟩, i, j + 1)
    else nextEmit rest (i + 1) 0

/-- One synchronous `typeChar` execution (lines 391–425): append the
next character and schedule the next timeout, or — when every segment
is exhausted — null `currentFullText` and resolve the reveal promise,
which resumes the awaiting `processQueue` activation at the gate. -/
def typeCharRun (s : State) : State :=
  match nextEmit (s.segments.drop s.currentSegmentIndex) s.currentSegmentIndex
      s.currentSegmentCharIndex with
  | some (ei, c, i2, j2) =>
    { s with
      dom := appendCharToDom s.dom ei
        ((s.segments.get? ei).bind Segment.effect) c,
      currentSegmentIndex := i2,
      currentSegmentCharIndex := j2,
      currentIndex := s.currentIndex + 1,
      charTimer := true }
  | none =>
    gateStart
      { s with
        currentFullText := none,
        currentSegmentIndex :=
          if s.currentSegmentIndex < s.segments.length then s.segments.length
          else s.currentSegmentIndex,
        currentSegmentCharIndex :=
          if s.currentSegmentIndex < s.segments.length then 0
          else s.currentSegmentCharIndex }

/-- `typeText` up to its first suspension (lines 371–428): reset the
cursor, parse the message, remove every child except the indicator,
then run the first (synchronous) `typeChar`. -/
def typeTextStart (text : List Char) (s : State) : State :=
  typeCharRun
    { s with
      currentText := [],
      currentIndex := 0,
      currentFullText := some text,
      segments := parseText text,
      currentSegmentIndex := 0,
      currentSegmentCharIndex := 0,
      dom := [] }

/-- `processQueue` up to its first suspension (lines 289–299): on an
empty queue set idle and hide the indicator; otherwise mark typing,
reset the skip flag, shift the head message and start revealing it. -/
def processQueue (s : State) : State :=
  match s.queue with
  | [] => { s with isTyping := false, indicatorVisible := false }
  | text :: rest =>
    typeTextStart text
      { s with isTyping := true, hasSkippedCurrentText := false, queue := rest }

/-- The `processQueue` continuation after its gate is passed (lines
309–319): apply the display-mode policy (`disappear` → `clear()`,
otherwise insert a `br` before the indicator) and recurse. -/
def afterGate (s : State) : State :=
  processQueue (if optDisappear s then clear s else { s with dom := s.dom ++ [Node.br] })

/-- Resolve `this.continueResolve` from an input handler: hide the
indicator, null the field, then run whatever the promise resumes —
the gate continuation for `.gate`, nothing for `.orphan`. -/
def fireContinue (s : State) : State :=
  let s1 := { s with indicatorVisible := false, continueResolve := none }
  match s.continueResolve with
  | some Waiter.gate => afterGate s1
  | _ => s1

/-- `skip()` (lines 476–513): under its guard, cancel the live
character timeout (stranding the reveal's awaiting activation),
replace the children with every segment's full text (spans without a
`data-segment` attribute), mark the message complete and skipped, set
idle, and — with `waitForInput` — create a fresh (orphan) continue
waiter and show the indicator. -/
def skip (s : State) : State :=
  if s.isTyping
      && (match s.currentFullText with | some t => !t.isEmpty | none => false)
      && !s.hasSkippedCurrentText then
    let s1 :=
      { s with
        charTimer := false,
        stuckPQ := s.stuckPQ + (if s.charTimer then 1 else 0),
        dom := s.segments.map (fun seg => Node.span none seg.effect seg.text),
        currentText := s.currentFullText.getD [],
        currentIndex := (s.currentFullText.getD []).length,
        currentFullText := none,
        currentSegmentIndex := s.segments.length,
        hasSkippedCurrentText := true,
        isTyping := false }
    if optWaitForInput s1 then setWaiter Waiter.orphan s1 else s1
  else s

/-- The skip key/click handler body (lines 149–171). -/
def skipHandler (s : State) : State :=
  if s.isTyping && !s.hasSkippedCurrentText then skip s
  else if s.hasSkippedCurrentText && s.continueResolve.isSome then fireContinue s
  else s

/-- The continue key/click handler body (lines 199–215). -/
def continueHandler (s : State) : State :=
  if !optSkippable s && s.continueResolve.isSome && s.indicatorVisible then fireContinue s
  else s

/-- Dispatch of one input signal (a keydown or a click on the box; the
two registered handlers for each signal kind have identical bodies).
The skip handler was registered first (constructor lines 80–87), so it
runs first; each runs only if its listener was registered. -/
def inputSignal (s : State) : State :=
  let s1 := if s.skipListeners then skipHandler s else s
  if s1.continueListeners then continueHandler s1 else s1

/-- `addToQueue` (lines 265–272): push, then start draining if idle. -/
def addToQueue (text : List Char) (s : State) : State :=
  let s1 := { s with queue := s.queue ++ [text] }
  if !s1.isTyping then processQueue s1 else s1

/-- `addMultipleToQueue` (lines 278–284). -/
def addMultipleToQueue (texts : List (List Char)) (s : State) : State :=
  let s1 := { s with queue := s.queue ++ texts }
  if !s1.isTyping then processQueue s1 else s1

/-- `clearQueue` (lines 454–459): empty the queue, `clear()`, set idle,
null `currentFullText`.  Note that it does not touch
`continueResolve`, the indicator, or pending `wait` timers. -/
def clearQueue (s : State) : State :=
  let s1 := clear { s with queue := [] }
  { s1 with isTyping := false, currentFullText := none }

/-- A live `typeChar` timeout fires: run `typeChar`. -/
def charTimerFire (s : State) : State :=
  if s.charTimer then typeCharRun { s with charTimer := false } else s

/-- A pending `wait(delayAfter)` timeout fires: run the gate
continuation of the activation that was awaiting it. -/
def delayTimerFire (s : State) : State :=
  if s.delayTimers ≠ 0 then afterGate { s with delayTimers := s.delayTimers - 1 } else s

/-- `updateOptions` (lines 526–529): merge the partial options over the
current ones and re-apply the presentation styles.  Nothing else. -/
def updateOptions (newOptions : JsObj) (s : State) : State :=
  let o := s.options ++ newOptions
  { s with options := o, styles := applyStyles o s.styles }

/-- The observable state right after construction (lines 23–88) with a
valid container: resolved options, empty queue, idle, styles applied,
indicator hidden, listeners registered according to the initial
options, no pending timers or waiters. -/
def initState (options : JsObj) : State :=
  let o := resolveOptions options
  let skippable := jsTruthy (objGet o "skippable")
  let baseStyles := applyStyles o {}
  { options := o
    styles := if skippable then { baseStyles with cursor := some "pointer" } else baseStyles
    queue := []
    isTyping := false
    currentText := []
    currentIndex := 0
    charTimer := false
    hasSkippedCurrentText := false
    currentFullText := none
    segments := []
    currentSegmentIndex := 0
    currentSegmentCharIndex := 0
    continueResolve := none
    dom := []
    indicatorVisible := false
    skipListeners := skippable
    continueListeners := jsTruthy (objGet o "waitForInput")
    delayTimers := 0
    stuckPQ := 0 }

/-! ## Concrete runs used by the claim theorems -/

/-- Options for the skip scenarios: `skippable` and `waitForInput` on. -/
def skipOpts : JsObj := [("skippable", JsVal.bool true), ("waitForInput", JsVal.bool true)]

/-- Mid-reveal of `"ab"` (first character already on screen, character
timer pending), with `"cd"` queued behind it. -/
def c1a : State := addToQueue ('a' :: 'b' :: []) (initState skipOpts)

/-- `"cd"` enqueued while `"ab"` is revealing. -/
def c1b : State := addToQueue ('c' :: 'd' :: []) c1a

/-- First input signal: the skip handler calls `skip()` on `"ab"`. -/
def c1Skip : State := inputSignal c1b

/-- Second input signal: the skip handler resolves the continue waiter. -/
def c1Cont : State := inputSignal c1Skip

/-- Mid-reveal of `"ab"`: `isTyping` is true. -/
def c2typing : State := addToQueue ('a' :: 'b' :: []) (initState skipOpts)

/-- After one input signal: `"ab"` is skip-completed awaiting continue. -/
def c2skipped : State := inputSignal c2typing

/-- Options for the clear-queue scenario: continue-gated, persist mode. -/
def c3opts : JsObj := [("waitForInput", JsVal.bool true), ("type", JsVal.str "persist")]

/-- `"a"` fully revealed naturally; the queue loop is suspended on its
continue waiter, indicator shown. -/
def c3wait : State := charTimerFire (addToQueue ['a'] (initState c3opts))

/-- `clearQueue()` called during the continue wait. -/
def c3cleared : State := clearQueue c3wait

/-- One input signal arriving after the clear. -/
def c3afterInput : State := inputSignal c3cleared

/-- Options for the persist scenario: persist mode, no continue gate. -/
def c4opts : JsObj := [("type", JsVal.str "persist"), ("waitForInput", JsVal.bool false)]

/-- `["A", "B"]` enqueued; `"A"` fully revealed; the queue loop is
suspended on its `wait(delayAfter)` timer. -/
def c4afterA : State := charTimerFire (addMultipleToQueue [['A'], ['B']] (initState c4opts))

/-- The delay fires: display-mode policy is applied and `"B"` starts. -/
def c4afterB : State := delayTimerFire c4afterA

/-- Disappear-mode options with no continue gate. -/
def c4dOpts : JsObj := [("waitForInput", JsVal.bool false)]

/-- `"A"` revealed and gated in disappear mode, queue drained. -/
def c4disappear : State := delayTimerFire (charTimerFire (addToQueue ['A'] (initState c4dOpts)))

/-! ## Helper lemmas -/

/-- A successful `matchMarker` decomposes its input as the literal
marker followed by the rest. -/
theorem matchMarker_eq {l t c r : List Char} (h : matchMarker l = some (t, c, r)) :
    l = '{' :: (t ++ ':' :: (c ++ '}' :: r)) := by
  unfold matchMarker at h
  split at h
  case h_2 => exact absurd h (by simp)
  case h_1 rest =>
    simp only [] at h
    split at h
    next => exact absurd h (by simp)
    next htag =>
      split at h
      next rest2 heq1 =>
        split at h
        next => exact absurd h (by simp)
        next hcon =>
          split at h
          next rest4 heq2 =>
            injection h with h'
            obtain ⟨ht, hc, hr⟩ : rest.takeWhile isWordChar = t
               ∧ rest2.takeWhile (fun ch => !(ch == '}')) = c ∧ rest4 = r := by
              simpa using h'
            have e1 : rest.takeWhile isWordChar ++ rest.dropWhile isWordChar = rest :=
              List.takeWhile_append_dropWhile _ _
            have e2 : rest2.takeWhile (fun ch => !(ch == '}'))
                ++ rest2.dropWhile (fun ch => !(ch == '}')) = rest2 :=
              List.takeWhile_append_dropWhile _ _
            rw [heq1] at e1
            rw [heq2] at e2
            have hrest2 : rest2 = c ++ '}' :: r := by
              rw [← hc, ← hr]
              exact e2.symm
            have hrest : rest = t ++ ':' :: rest2 := by
              rw [← ht]
              exact e1.symm
            rw [hrest, hrest2]
          next => exact absurd h (by simp)
      next => exact absurd h (by simp)

/-- A marker consumes at least three more characters than it leaves. -/
theorem matchMarker_length {l t c r : List Char} (h : matchMarker l = some (t, c, r)) :
    r.length + 3 ≤ l.length := by
  have := matchMarker_eq h
  subst this
  simp
  omega

/-- When the scan reaches the end of input, the accumulator holds
exactly the input appended to the initial accumulator. -/
theorem findMarker_done : ∀ (l pending p : List Char),
    findMarker pending l = ScanStep.done p → p.reverse = pending.reverse ++ l := by
  intro l
  induction l with
  | nil =>
    intro pending p h
    simp only [findMarker] at h
    injection h with h'
    simp [← h']
  | cons ch cs ih =>
    intro pending p h
    simp only [findMarker] at h
    split at h
    · exact absurd h (by simp)
    · have := ih (ch :: pending) p h
      simpa [List.append_assoc] using this

/-- When the scan finds a marker, the walked-over text plus the marker
source plus the rest reconstruct the input, and the rest is strictly
shorter. -/
theorem findMarker_found : ∀ (l pending p t c r : List Char),
    findMarker pending l = ScanStep.found p t c r →
    p.reverse ++ ('{' :: (t ++ ':' :: (c ++ '}' :: r))) = pending.reverse ++ l
    ∧ r.length + 3 ≤ l.length := by
  intro l
  induction l with
  | nil =>
    intro pending p t c r h
    simp only [findMarker] at h
    exact absurd h (by simp)
  | cons ch cs ih =>
    intro pending p t c r h
    simp only [findMarker] at h
    split at h
    next t0 c0 r0 hm =>
      injection h with h1 h2 h3 h4
      subst h1; subst h2; subst h3; subst h4
      refine ⟨?_, ?_⟩
      · rw [← matchMarker_eq hm]
      · exact matchMarker_length hm
    next =>
      obtain ⟨h1, h2⟩ := ih (ch :: pending) p t c r h
      constructor
      · rw [h1]
        simp [List.append_assoc]
      · simp
        omega

/-- `joinAll` distributes over append. -/
theorem joinAll_append (a b : List (List Char)) :
    joinAll (a ++ b) = joinAll a ++ joinAll b := by
  induction a with
  | nil => simp [joinAll]
  | cons x xs ih => simp [joinAll, ih]

/-- The source text of a flushed plain accumulator is the accumulator. -/
theorem joinAll_flushPlain (p : List Char) :
    joinAll ((flushPlain p).map segSource) = p.reverse := by
  unfold flushPlain
  by_cases h : p.isEmpty
  · simp [h]
    simp [List.isEmpty_iff] at h
    simp [h, joinAll]
  · simp [h, joinAll, segSource]

/-- With enough fuel, the marker scan's segments reconstruct exactly
the input (plain segments verbatim, effect segments re-wrapped in
their marker syntax). -/
theorem scanLoop_join : ∀ (fuel : Nat) (pending l : List Char), l.length ≤ fuel →
    joinAll ((scanLoop fuel pending l).map segSource) = pending.reverse ++ l := by
  intro fuel
  induction fuel with
  | zero =>
    intro pending l hl
    have hnil : l = [] := List.length_eq_zero.mp (Nat.le_zero.mp hl)
    subst hnil
    simp only [scanLoop, findMarker]
    simp [joinAll_flushPlain]
  | succ f ih =>
    intro pending l hl
    rw [scanLoop]
    cases hfm : findMarker pending l with
    | done p =>
      simp only []
      rw [joinAll_flushPlain]
      exact findMarker_done l pending p hfm
    | found p t c r =>
      obtain ⟨heq, hlen⟩ := findMarker_found l pending p t c r hfm
      simp only [List.map_append, List.map_cons]
      rw [joinAll_append]
      rw [joinAll_flushPlain]
      have hr : r.length ≤ f := by omega
      simp only [joinAll, segSource]
      rw [ih [] r hr]
      simp only [List.reverse_nil, List.nil_append]
      rw [← heq]
      simp [List.append_assoc]

/-- On marker-free input the scan walks to the end accumulating
everything. -/
theorem findMarker_noMarker : ∀ (l pending : List Char), hasMarker l = false →
    findMarker pending l = ScanStep.done (l.reverse ++ pending) := by
  intro l
  induction l with
  | nil => intro pending _; simp [findMarker]
  | cons ch cs ih =>
    intro pending h
    simp only [hasMarker, Bool.or_eq_false_iff] at h
    obtain ⟨h1, h2⟩ := h
    simp only [findMarker]
    split
    next t0 c0 r0 hm => rw [hm] at h1; exact absurd h1 (by simp)
    next =>
      rw [ih (ch :: pending) h2]
      simp [List.append_assoc]

/-- The untimed reveal trace of `typeChar` carries uniformly spaced
timestamps over the flattened per-character emission list. -/
theorem revealT_timeStamp (d : ℚ) : ∀ (rest : List Segment) (cs : List Char) (t : ℚ) (i : Nat),
    revealT d t i cs rest = timeStamp d t (charEmits i cs ++ segEmits (i + 1) rest) := by
  intro rest
  induction rest with
  | nil =>
    intro cs
    induction cs with
    | nil => intro t i; simp [revealT, charEmits, segEmits, timeStamp]
    | cons c cs' ih =>
      intro t i
      rw [revealT]
      simp only [charEmits, List.cons_append, timeStamp]
      rw [ih]
      rfl
  | cons seg rest' ihr =>
    intro cs
    induction cs with
    | nil =>
      intro t i
      rw [revealT, ihr seg.text t (i + 1)]
      simp [charEmits, segEmits]
    | cons c cs' ih =>
      intro t i
      rw [revealT]
      simp only [charEmits, List.cons_append, timeStamp]
      rw [ih]
      rfl

/-- Whole-message form of `revealT_timeStamp`, from cursor (0,0). -/
theorem revealTrace_timeStamp (d : ℚ) (segs : List Segment) :
    revealTrace d segs = timeStamp d 0 (segEmits 0 segs) := by
  cases segs with
  | nil => simp [revealTrace, segEmits, timeStamp]
  | cons seg rest =>
    simp only [revealTrace, segEmits]
    rw [revealT_timeStamp]

/-- A skip on an already-skipped message is the identity. -/
theorem skip_of_skipped (s : State) (h : s.hasSkippedCurrentText = true) : skip s = s := by
  unfold skip
  rw [if_neg]
  simp [h]

/-- Projection of `hasSkippedCurrentText` through a conditional. -/
theorem hasSkipped_ite (c : Prop) [Decidable c] (a b : State)
    (ha : a.hasSkippedCurrentText = true) (hb : b.hasSkippedCurrentText = true) :
    (if c then a else b).hasSkippedCurrentText = true := by
  split <;> assumption

/-- `skip` either marks the message skipped or changes nothing. -/
theorem skip_result_skipped (s : State) :
    (skip s).hasSkippedCurrentText = true ∨ skip s = s := by
  unfold skip
  split
  · left
    simp only []
    exact hasSkipped_ite _ _ _ rfl rfl
  · right; rfl

/-- Property folds compose over object append. -/
theorem objGetAux_append (key : String) (acc : JsVal) (a b : JsObj) :
    objGetAux key acc (a ++ b) = objGetAux key (objGetAux key acc a) b := by
  induction a generalizing acc with
  | nil => simp [objGetAux]
  | cons kv rest ih => simp [objGetAux, ih]

/-- An object without the key leaves the accumulator unchanged. -/
theorem objGetAux_not_has (key : String) (acc : JsVal) (b : JsObj)
    (h : hasKey b key = false) : objGetAux key acc b = acc := by
  induction b generalizing acc with
  | nil => simp [objGetAux]
  | cons kv rest ih =>
    simp only [hasKey] at h
    split at h
    · exact absurd h (by simp)
    next hne =>
      simp only [objGetAux]
      rw [if_neg hne]
      exact ih acc h

/-- An object containing the key determines the read regardless of the
initial accumulator (last-write-wins). -/
theorem objGetAux_has_indep (key : String) (b : JsObj) (h : hasKey b key = true)
    (a1 a2 : JsVal) : objGetAux key a1 b = objGetAux key a2 b := by
  induction b generalizing a1 a2 with
  | nil => simp [hasKey] at h
  | cons kv rest ih =>
    by_cases hk : kv.1 = key
    · simp [objGetAux, hk]
    · simp only [hasKey] at h
      rw [if_neg hk] at h
      simp only [objGetAux]
      rw [if_neg hk, if_neg hk]
      exact ih h a1 a2

/-! ## Claim theorems -/

/-- Claim C1 (code bug).  The claim says `skip()` cancels the pending
character timer, synchronously renders every segment's full text,
marks the message skip-completed, and resolves the same completion
signal as a natural finish so that the queue controller's await
completes and queue processing can proceed.  The first three parts
hold, but the last is false in the code: `skip()` clears the timeout
whose `typeChar` tick is the only caller of the reveal promise's
`resolve`, so the promise is never resolved and the `processQueue`
activation awaiting it is suspended forever (`stuckPQ = 1`).  The
"second press" merely resolves the orphan waiter `skip()` itself
created: afterwards the queued message `"cd"` has not been dequeued
and nothing is typing — the drain never proceeds. -/
theorem c1_skip_leaves_completion_unresolved :
    c1Skip.dom = [Node.span none none ('a' :: 'b' :: [])]
    ∧ c1Skip.charTimer = false
    ∧ c1Skip.hasSkippedCurrentText = true
    ∧ c1Skip.isTyping = false
    ∧ c1Skip.stuckPQ = 1
    ∧ c1Skip.continueResolve = some Waiter.orphan
    ∧ c1Cont.queue = [('c' :: 'd' :: [])]
    ∧ c1Cont.isTyping = false
    ∧ c1Cont.charTimer = false
    ∧ c1Cont.currentFullText = none
    ∧ c1Cont.continueResolve = none
    ∧ c1Cont.stuckPQ = 1 := by decide

/-- Claim C2, counterexample.  The claim says an enqueue made while a
message is skip-completed awaiting continue does not start a second
concurrent `processQueue` invocation.  In the code, `skip()` sets
`isTyping` to false while the first invocation is still suspended on
the never-resolved reveal promise, so `addToQueue` passes the
`isTyping` guard and starts a second invocation: the call itself
begins revealing `"cd"` (a span is emitted and a timer scheduled)
while the first activation remains suspended (`stuckPQ = 1`). -/
theorem c2_enqueue_after_skip_starts_second_drain :
    c2skipped.hasSkippedCurrentText = true
    ∧ c2skipped.continueResolve = some Waiter.orphan
    ∧ c2skipped.isTyping = false
    ∧ c2skipped.stuckPQ = 1
    ∧ (addToQueue ('c' :: 'd' :: []) c2skipped).isTyping = true
    ∧ (addToQueue ('c' :: 'd' :: []) c2skipped).stuckPQ = 1
    ∧ (addToQueue ('c' :: 'd' :: []) c2skipped).currentFullText = some ('c' :: 'd' :: [])
    ∧ (addToQueue ('c' :: 'd' :: []) c2skipped).charTimer = true
    ∧ (addToQueue ('c' :: 'd' :: []) c2skipped).dom = [Node.span (some 0) none ['c']] := by
  decide

/-- Claim C2, amended.  While `isTyping` is true — which covers every
state of an undisturbed drain from the start of a reveal through the
post-reveal wait — enqueueing only appends to the queue and starts no
second `processQueue` invocation.  The exception forced by the
counterexample is the skip-completed state, where `skip()` has already
set `isTyping` to false (leaving the old activation permanently
suspended), so a subsequent enqueue does start a new drain there. -/
theorem c2_enqueue_while_typing_only_appends (s : State) (text : List Char)
    (h : s.isTyping = true) :
    addToQueue text s = { s with queue := s.queue ++ [text] } := by
  unfold addToQueue
  simp [h]

/-- Witness for `c2_enqueue_while_typing_only_appends` at the concrete
mid-reveal state `c2typing`. -/
theorem c2_witness :
    c2typing.isTyping = true
    ∧ addToQueue ('x' :: []) c2typing
        = { c2typing with queue := c2typing.queue ++ [('x' :: [])] } :=
  ⟨by decide, c2_enqueue_while_typing_only_appends c2typing ('x' :: []) (by decide)⟩

/-- Claim C3 (code bug).  After `clearQueue()` the queue is empty,
`isTyping` is false and the character timer is cancelled (first three
conjuncts, proved for every state), and in the concrete run the
cleared box is empty.  But the claim's final part is false in the
code: `clearQueue()` leaves `this.continueResolve` set and the
continue indicator visible, so one later input signal resolves the
stale waiter and resumes the continuation that was pending before the
clear — observably, the persist-mode branch inserts a `br` into the
box that was just cleared. -/
theorem c3_clearQueue_leaves_stale_waiter :
    (∀ s : State, (clearQueue s).queue = [] ∧ (clearQueue s).isTyping = false
      ∧ (clearQueue s).charTimer = false ∧ (clearQueue s).currentFullText = none)
    ∧ c3cleared.dom = []
    ∧ c3cleared.continueResolve = some Waiter.gate
    ∧ c3cleared.indicatorVisible = true
    ∧ c3afterInput.dom = [Node.br]
    ∧ c3afterInput.continueResolve = none := by
  refine ⟨fun s => ⟨rfl, rfl, rfl, rfl⟩, ?_⟩
  decide

/-- Claim C4 (code bug).  The display-mode policy is applied after the
gate: in disappear mode the surface returns to its pre-reveal baseline
(`c4disappear.dom = []`, indicator hidden).  But the persist half of
the claim is false in the code: the policy's `br` insertion is
immediately undone because `typeText` begins every message by removing
all children except the indicator, so after the gate of `"A"` the
reveal of `"B"` leaves only `"B"`'s span — neither `"A"`'s content nor
the separator survives, and content does not accumulate. -/
theorem c4_persist_does_not_accumulate :
    c4afterA.delayTimers = 1
    ∧ c4afterA.dom = [Node.span (some 0) none ['A']]
    ∧ c4afterB.isTyping = true
    ∧ c4afterB.currentFullText = some ['B']
    ∧ c4afterB.dom = [Node.span (some 0) none ['B']]
    ∧ c4disappear.dom = []
    ∧ c4disappear.isTyping = false
    ∧ c4disappear.indicatorVisible = false := by decide

/-- Claim C5 (confirmed).  A marker-free input parses to exactly one
plain segment equal to the whole input; the empty string parses to one
empty plain segment; and the marker-only input braces-a-colon-x,
braces-b-colon-y parses to exactly the two tagged segments in order. -/
theorem c5_parse_plain_and_markers :
    (∀ l : List Char, hasMarker l = false → parseText l = [⟨l, none⟩])
    ∧ parseText [] = [⟨[], none⟩]
    ∧ parseText ('{' :: 'a' :: ':' :: 'x' :: '}' :: '{' :: 'b' :: ':' :: 'y' :: '}' :: [])
        = [⟨['x'], some ['a']⟩, ⟨['y'], some ['b']⟩] := by
  refine ⟨?_, by decide, by decide⟩
  intro l h
  unfold parseText
  rw [scanLoop, findMarker_noMarker l [] h]
  simp only []
  unfold flushPlain
  by_cases hl : l.isEmpty
  · simp [List.isEmpty_iff] at hl
    subst hl
    simp
  · have hne : ¬(l.reverse ++ []).isEmpty = true := by
      simp [List.isEmpty_iff]
      simp [List.isEmpty_iff] at hl
      exact hl
    simp only [hne, if_false]
    simp

/-- Witness for `c5_parse_plain_and_markers` at the marker-free input
`"hi!"`. -/
theorem c5_witness :
    hasMarker ('h' :: 'i' :: '!' :: []) = false
    ∧ parseText ('h' :: 'i' :: '!' :: []) = [⟨'h' :: 'i' :: '!' :: [], none⟩] :=
  ⟨by decide, c5_parse_plain_and_markers.1 ('h' :: 'i' :: '!' :: []) (by decide)⟩

/-- Claim C6 (confirmed).  For every input, mapping each parsed segment
back to its source text (plain segments contribute their text field
verbatim, effect segments contribute their text field wrapped in the
marker syntax) and concatenating reconstructs the input exactly —
equivalently, concatenating the text fields alone yields the input
with precisely the marker syntax removed. -/
theorem c6_concat_reconstructs_input (text : List Char) :
    joinAll ((parseText text).map segSource) = text := by
  unfold parseText
  by_cases h : (scanLoop text.length [] text).isEmpty
  · simp only [h, if_true]
    simp [joinAll, segSource]
  · simp only [h, if_false]
    have := scanLoop_join text.length [] text (le_refl _)
    simpa using this

/-- Claim C7 (confirmed).  The per-character delay computed by
`typeText` is `1000 / speed` milliseconds and is positive for positive
speed; the timed reveal trace emits every character of every segment
exactly once, in order, with timestamps spaced exactly one delay apart
and no extra delay at segment boundaries (`timeStamp` attaches
uniformly spaced times to the flat emission list); and with
`speed = 1000` the message `"ab"` yields exactly the two append
instructions `a` at time 0 and `b` at time 1 before completion. -/
theorem c7_reveal_timing (speed : ℚ) (h : 0 < speed) :
    msPerChar speed = 1000 / speed
    ∧ 0 < msPerChar speed
    ∧ (∀ (d : ℚ) (segs : List Segment), revealTrace d segs = timeStamp d 0 (segEmits 0 segs))
    ∧ revealTrace (msPerChar 1000) (parseText ('a' :: 'b' :: []))
        = [((0 : ℚ), 0, 'a'), ((1 : ℚ), 0, 'b')] := by
  have hms : msPerChar speed = 1000 / speed := by
    unfold msPerChar charsPerMs
    rw [one_div_div]
  refine ⟨hms, ?_, fun d segs => revealTrace_timeStamp d segs, ?_⟩
  · rw [hms]
    positivity
  · rw [revealTrace_timeStamp]
    have h1 : msPerChar 1000 = 1 := by unfold msPerChar charsPerMs; norm_num
    have h2 : parseText ('a' :: 'b' :: []) = [⟨'a' :: 'b' :: [], none⟩] := by decide
    rw [h1, h2]
    simp [segEmits, charEmits, timeStamp]

/-- Witness for `c7_reveal_timing` at `speed = 1000`. -/
theorem c7_witness :
    (0 : ℚ) < 1000
    ∧ (msPerChar 1000 = 1000 / 1000
      ∧ 0 < msPerChar 1000
      ∧ (∀ (d : ℚ) (segs : List Segment),
          revealTrace d segs = timeStamp d 0 (segEmits 0 segs))
      ∧ revealTrace (msPerChar 1000) (parseText ('a' :: 'b' :: []))
          = [((0 : ℚ), 0, 'a'), ((1 : ℚ), 0, 'b')]) :=
  ⟨by norm_num, c7_reveal_timing 1000 (by norm_num)⟩

/-- Claim C8 (confirmed).  Skip is idempotent: a second `skip()` on any
state is a no-op, because a first skip that did anything set
`hasSkippedCurrentText` (and cleared `currentFullText` and
`isTyping`), making the second call fail its guard — so the entire
state, rendered output included, is unchanged by the second call. -/
theorem c8_skip_idempotent (s : State) : skip (skip s) = skip s := by
  rcases skip_result_skipped s with h | h
  · exact skip_of_skipped _ h
  · rw [h]; exact h

/-- Claim C9 (confirmed).  `updateOptions` merges the partial options
and re-applies the presentation styles, and leaves every piece of
in-flight reveal state — the pending queue, `isTyping`, the cursor
(segment index, character index, segments, accumulated text and
count), the skip flag, the pending continue-waiter, the timers and the
rendered children — unchanged. -/
theorem c9_updateOptions_frame (s : State) (newOptions : JsObj) :
    (updateOptions newOptions s).queue = s.queue
    ∧ (updateOptions newOptions s).isTyping = s.isTyping
    ∧ (updateOptions newOptions s).currentSegmentIndex = s.currentSegmentIndex
    ∧ (updateOptions newOptions s).currentSegmentCharIndex = s.currentSegmentCharIndex
    ∧ (updateOptions newOptions s).hasSkippedCurrentText = s.hasSkippedCurrentText
    ∧ (updateOptions newOptions s).continueResolve = s.continueResolve
    ∧ (updateOptions newOptions s).charTimer = s.charTimer
    ∧ (updateOptions newOptions s).delayTimers = s.delayTimers
    ∧ (updateOptions newOptions s).dom = s.dom
    ∧ (updateOptions newOptions s).currentFullText = s.currentFullText
    ∧ (updateOptions newOptions s).currentText = s.currentText
    ∧ (updateOptions newOptions s).currentIndex = s.currentIndex
    ∧ (updateOptions newOptions s).indicatorVisible = s.indicatorVisible
    ∧ (updateOptions newOptions s).segments = s.segments
    ∧ (updateOptions newOptions s).stuckPQ = s.stuckPQ
    ∧ (updateOptions newOptions s).options = s.options ++ newOptions
    ∧ (updateOptions newOptions s).styles = applyStyles (s.options ++ newOptions) s.styles :=
  ⟨rfl, rfl, rfl, rfl, rfl, rfl, rfl, rfl, rfl, rfl, rfl, rfl, rfl, rfl, rfl, rfl, rfl⟩

/-- Claim C10 (confirmed).  For every key present in the caller's
options object the resolved configuration takes the caller's value —
falsy or not — because the final spread rebinds every caller key after
the defaulted entries; in particular `speed: 0` resolves to `0`, not
`30`.  The documented default applies only when the key is absent:
with no `speed` key the resolved `speed` is `30`. -/
theorem c10_option_resolution :
    (∀ (options : JsObj) (key : String), hasKey options key = true →
        objGet (resolveOptions options) key = objGet options key)
    ∧ objGet (resolveOptions [("speed", JsVal.num 0)]) "speed" = JsVal.num 0
    ∧ (∀ options : JsObj, hasKey options "speed" = false →
        objGet (resolveOptions options) "speed" = JsVal.num 30) := by
  refine ⟨?_, by decide, ?_⟩
  · intro options key h
    unfold resolveOptions objGet
    rw [objGetAux_append]
    exact objGetAux_has_indep key options h _ _
  · intro options h
    have h0 : objGetAux "speed" JsVal.undefined options = JsVal.undefined :=
      objGetAux_not_has _ _ _ h
    unfold resolveOptions objGet
    rw [objGetAux_append, objGetAux_not_has _ _ _ h]
    simp [objGetAux, h0, jsOr, jsTruthy]

/-- Witness for `c10_option_resolution` at the concrete falsy override
`speed: 0`. -/
theorem c10_witness :
    hasKey [("speed", JsVal.num 0)] "speed" = true
    ∧ objGet (resolveOptions [("speed", JsVal.num 0)]) "speed"
        = objGet [("speed", JsVal.num 0)] "speed" :=
  ⟨by decide, c10_option_resolution.1 [("speed", JsVal.num 0)] "speed" (by decide)⟩

end TW
